import Mathlib

/-!
# Verification of the FoundryTools-CLI-NG font container state machine

This file gives a shallow embedding, in Lean 4, of the outline-conversion /
contour-sanitization core of the `ftCLI/FoundryTools-CLI-NG` repository,
together with theorems settling the frozen claims about it.

The repository contains two versions of its `Font` container class:

* `foundrytools_cli_2/lib/font/font.py` — the newer class, carrying a
  `modified` flag.  Embedded below in the `FontPkg` namespace.
* `foundrytools_cli_2/lib/font.py` — the older module-level class, carrying
  the `_restore_flavor` context manager and a concrete
  `tt_decomponentize` loop.  Embedded below in the `FontMod` namespace.

Pure helpers called by the container (`build_ttf`, `build_otf`,
`quadratics_to_cubics`, `fix_charstrings`, `cff_subr`, `cff_desubr`,
`decomponentize`) live in repository modules that are not part of the
sources available here; where the behaviour of one of those helpers decides
a claim it is modelled from the specification (each such definition says so
in its doc comment), and external-library calls (fontTools pens, `cffsubr`,
`dehinter`) are abstracted as function parameters.
-/

set_option autoImplicit false

/-- Wrapper (web-compression) flavors a `TTFont` can carry in this code base.
The Python attribute `TTFont.flavor` is `None`, `"woff"` or `"woff2"`;
`None` is modelled as `Option.none`. -/
inductive Flavor where
  | woff
  | woff2
deriving DecidableEq, Repr

/-- The error conditions raised by the container methods.  `valueError` and
`notImplementedError` embed Python's `ValueError` and `NotImplementedError`
(the two precondition-violation conditions the guards raise);
`malformedInput` embeds the malformed-font condition (fontTools'
`TTLibError`), which no guard ever raises. -/
inductive FontError where
  | valueError (msg : String)
  | notImplementedError (msg : String)
  | malformedInput (msg : String)
deriving DecidableEq, Repr

/-- `True` exactly for the two guard conditions of the error taxonomy
(precondition violations), both distinct from `malformedInput`. -/
def FontError.isPrecondition : FontError → Bool
  | .valueError _ => true
  | .notImplementedError _ => true
  | .malformedInput _ => false

/-- `True` exactly for the malformed-input condition. -/
def FontError.isMalformed : FontError → Bool
  | .malformedInput _ => true
  | _ => false

/-- A TrueType (`glyf`) glyph: either a simple glyph carrying its point
program, or a composite glyph referencing other glyphs with x/y offsets. -/
inductive TTGlyph where
  | simple (program : List Int)
  | composite (components : List (String × Int × Int))
deriving DecidableEq, Repr

/-- Whether a `glyf` glyph is a composite (`Glyph.isComposite()` in
fontTools). -/
def TTGlyph.isComposite : TTGlyph → Bool
  | .simple _ => false
  | .composite _ => true

/-- A closed contour of a PostScript charstring, as its flattened point
sequence (integer font-unit coordinates). -/
structure Contour where
  points : List (Int × Int)
deriving DecidableEq, Repr

/-- A PostScript (CFF) charstring, as its decoded contour list. -/
abbrev Charstring : Type := List Contour

/-- The state of the underlying `fontTools.ttLib.TTFont` object that the
container methods read and write: the sfnt version string, the wrapper
flavor, presence of the variation-axis (`fvar`) table, `head.unitsPerEm`,
the `glyf` and CFF charstring outline tables, the glyph order, the
horizontal metrics (advance widths), and the remaining table tags. -/
structure TTFontData where
  sfntVersion : String
  flavor : Option Flavor
  hasFvar : Bool
  unitsPerEm : Int
  glyf : List (String × TTGlyph)
  glyphOrder : List String
  charstrings : List (String × Charstring)
  hmtx : List (String × Int)
  otherTables : List String
deriving DecidableEq, Repr

/-- `PS_SFNT_VERSION = "OTTO"` (lib/font.py line 20). -/
def PS_SFNT_VERSION : String := "OTTO"

/-- `TT_SFNT_VERSION = "\0\1\0\0"` (lib/font.py line 21). -/
def TT_SFNT_VERSION : String := "\x00\x01\x00\x00"

/-- `OTF_EXTENSION = ".otf"`. -/
def OTF_EXTENSION : String := ".otf"

/-- `TTF_EXTENSION = ".ttf"`. -/
def TTF_EXTENSION : String := ".ttf"

/-- `WOFF_EXTENSION = ".woff"`. -/
def WOFF_EXTENSION : String := ".woff"

/-- `WOFF2_EXTENSION = ".woff2"`. -/
def WOFF2_EXTENSION : String := ".woff2"

/-- `MIN_UPM = 16` (lib/font.py line 30). -/
def MIN_UPM : Int := 16

/-- `MAX_UPM = 16384` (lib/font.py line 31). -/
def MAX_UPM : Int := 16384

/-- `Font.is_ps`: the font has PostScript outlines
(`ttfont.sfntVersion == PS_SFNT_VERSION`). -/
def TTFontData.is_ps (d : TTFontData) : Bool := d.sfntVersion = PS_SFNT_VERSION

/-- `Font.is_tt`: the font has TrueType outlines
(`ttfont.sfntVersion == TT_SFNT_VERSION`). -/
def TTFontData.is_tt (d : TTFontData) : Bool := d.sfntVersion = TT_SFNT_VERSION

/-- `Font.is_woff`: `ttfont.flavor == WOFF_FLAVOR`. -/
def TTFontData.is_woff (d : TTFontData) : Bool := d.flavor = some Flavor.woff

/-- `Font.is_woff2`: `ttfont.flavor == WOFF2_FLAVOR`. -/
def TTFontData.is_woff2 (d : TTFontData) : Bool := d.flavor = some Flavor.woff2

/-- `Font.is_sfnt`: `ttfont.flavor is None`. -/
def TTFontData.is_sfnt (d : TTFontData) : Bool := d.flavor = none

/-- `Font.is_variable`: `ttfont.get("fvar") is not None`. -/
def TTFontData.is_variable (d : TTFontData) : Bool := d.hasFvar

/-- `Font.is_static`: `ttfont.get("fvar") is None`. -/
def TTFontData.is_static (d : TTFontData) : Bool := !d.hasFvar

/-- `Font.get_real_extension` (identical logic in both source files:
lib/font/font.py lines 351–371, lib/font.py lines 242–259): WOFF and WOFF2
are checked before the sfnt-version checks. -/
def TTFontData.get_real_extension (d : TTFontData) : String :=
  if d.is_woff then WOFF_EXTENSION
  else if d.is_woff2 then WOFF2_EXTENSION
  else if d.is_ps then OTF_EXTENSION
  else if d.is_tt then TTF_EXTENSION
  else d.sfntVersion

/-- Twice the signed (shoelace) area of a closed point sequence: the sum of
cross products over consecutive point pairs, wrapping around to the start.
Doubling keeps the value an integer. -/
def doubleAreaPts (ps : List (Int × Int)) : Int :=
  (ps.zip (ps.drop 1 ++ ps.take 1)).foldl
    (fun s q => s + (q.1.1 * q.2.2 - q.2.1 * q.1.2)) 0

/-- Twice the signed area of a contour. -/
def Contour.doubleArea (c : Contour) : Int := doubleAreaPts c.points

/-- An in-place operation on the underlying `TTFont`, which may both mutate
the state and raise: the result pairs an optional error with the state the
object is left in (a Python exception propagates while leaving the mutated
object behind). -/
abbrev TTOp := TTFontData → Option FontError × TTFontData

namespace FontPkg

/-- The `Font` class of `lib/font/font.py`: the underlying `TTFont` state
plus the `modified` flag. -/
structure Font where
  ttfont : TTFontData
  modified : Bool
deriving DecidableEq, Repr

/-- `Font.is_ps` (lib/font/font.py lines 154–161). -/
def Font.is_ps (f : Font) : Bool := f.ttfont.is_ps

/-- `Font.is_tt` (lib/font/font.py lines 163–170). -/
def Font.is_tt (f : Font) : Bool := f.ttfont.is_tt

/-- `Font.is_woff` (lib/font/font.py lines 172–179). -/
def Font.is_woff (f : Font) : Bool := f.ttfont.is_woff

/-- `Font.is_woff2` (lib/font/font.py lines 181–188). -/
def Font.is_woff2 (f : Font) : Bool := f.ttfont.is_woff2

/-- `Font.is_sfnt` (lib/font/font.py lines 190–197). -/
def Font.is_sfnt (f : Font) : Bool := f.ttfont.is_sfnt

/-- `Font.is_variable` (lib/font/font.py lines 208–215). -/
def Font.is_variable (f : Font) : Bool := f.ttfont.is_variable

/-- Methods that mutate the Python object in place are embedded in
state-passing style: the result pairs the raised error (or `none` on normal
return) with the state the container is left in, so that "raises without
side effects" is the equation `result = (some e, f)`. -/
abbrev FontResult := Option FontError × Font

/-- `Font.to_woff` (lib/font/font.py lines 454–462): raise if already WOFF,
else set the flavor to WOFF and the `modified` flag to `True`. -/
def Font.to_woff (f : Font) : FontResult :=
  if f.is_woff then
    (some (.notImplementedError "Font is already a WOFF font."), f)
  else
    (none, ⟨{ f.ttfont with flavor := some Flavor.woff }, true⟩)

/-- `Font.to_woff2` (lib/font/font.py lines 464–472). -/
def Font.to_woff2 (f : Font) : FontResult :=
  if f.is_woff2 then
    (some (.notImplementedError "Font is already a WOFF2 font."), f)
  else
    (none, ⟨{ f.ttfont with flavor := some Flavor.woff2 }, true⟩)

/-- `Font.to_sfnt` (lib/font/font.py lines 501–509). -/
def Font.to_sfnt (f : Font) : FontResult :=
  if f.is_sfnt then
    (some (.notImplementedError "Font is already a SFNT font."), f)
  else
    (none, ⟨{ f.ttfont with flavor := none }, true⟩)

/-- Modelled from the spec: `build_ttf`
(`foundrytools_cli_2/lib/ttf/ttf_builder.py`, absent from the available
sources).  Per the spec, a tolerance ≤ 0 is a precondition violation
signalling an invalid-argument condition before any mutation, and on
success the Builder installs the quadratic outline tables, replacing the
PostScript ones.  The numeric cubic→quadratic curve fitting itself is
delegated to the external `cu2qu` machinery, abstracted here as the `fit`
parameter. -/
def build_ttf (fit : Charstring → Bool → TTGlyph) (d : TTFontData)
    (max_err : ℚ) (reverse_direction : Bool) : Option FontError × TTFontData :=
  if max_err ≤ 0 then
    (some (.valueError "max_err must be a positive value"), d)
  else
    (none, { d with
      sfntVersion := TT_SFNT_VERSION,
      glyf := d.charstrings.map (fun p => (p.1, fit p.2 reverse_direction)),
      charstrings := [] })

/-- Modelled from the spec: `quadratics_to_cubics`
(`foundrytools_cli_2/lib/otf/t2_charstrings.py`, absent from the available
sources).  Per the spec, a tolerance ≤ 0 is a precondition violation
signalling an invalid-argument condition before any mutation; otherwise
each quadratic glyph is re-fitted as a cubic charstring (the numeric
fitting abstracted as the `conv` parameter). -/
def quadratics_to_cubics (conv : TTGlyph → Charstring) (d : TTFontData)
    (tolerance : ℚ) : Except FontError (List (String × Charstring)) :=
  if tolerance ≤ 0 then
    .error (.valueError "tolerance must be a positive value")
  else
    .ok (d.glyf.map (fun p => (p.1, conv p.2)))

/-- Modelled from the spec: `build_otf`
(`foundrytools_cli_2/lib/otf/otf_builder.py`, absent from the available
sources).  Per the spec, the Builder serializes the charstring set into the
container's table set, replacing any pre-existing outline tables of the
other kind. -/
def build_otf (d : TTFontData) (cs : List (String × Charstring)) : TTFontData :=
  { d with sfntVersion := PS_SFNT_VERSION, charstrings := cs, glyf := [] }

/-- `Font.to_ttf` (lib/font/font.py lines 474–484): `ValueError` if already
TrueType, `NotImplementedError` if variable, else `build_ttf` and set
`modified`.  If `build_ttf` raises, the container keeps whatever state the
builder left it in and `modified` keeps its prior value. -/
def Font.to_ttf (fit : Charstring → Bool → TTGlyph) (f : Font)
    (max_err : ℚ) (reverse_direction : Bool) : FontResult :=
  if f.is_tt then
    (some (.valueError "Font is already a TrueType font."), f)
  else if f.is_variable then
    (some (.notImplementedError
      "Conversion to TrueType is not supported for variable fonts."), f)
  else
    match build_ttf fit f.ttfont max_err reverse_direction with
    | (some e, d) => (some e, ⟨d, f.modified⟩)
    | (none, d) => (none, ⟨d, true⟩)

/-- `Font.to_otf` (lib/font/font.py lines 486–499): `ValueError` if already
PostScript, `NotImplementedError` if variable, else `quadratics_to_cubics`,
`build_otf` and set `modified`. -/
def Font.to_otf (conv : TTGlyph → Charstring) (f : Font)
    (tolerance : ℚ) : FontResult :=
  if f.is_ps then
    (some (.valueError "Font is already a PostScript font."), f)
  else if f.is_variable then
    (some (.notImplementedError
      "Conversion to PostScript is not supported for variable fonts."), f)
  else
    match quadratics_to_cubics conv f.ttfont tolerance with
    | .error e => (some e, f)
    | .ok cs => (none, ⟨build_otf f.ttfont cs, true⟩)

/-- `Font.tt_decomponentize` (lib/font/font.py lines 511–519):
`NotImplementedError` unless TrueType, else run the repository's
`decomponentize` helper (`lib/ttf/decomponentize.py`, absent from the
available sources, abstracted as the `decomp` parameter) and set
`modified`. -/
def Font.tt_decomponentize (decomp : TTFontData → TTFontData)
    (f : Font) : FontResult :=
  if !f.is_tt then
    (some (.notImplementedError
      "Decomponentization is only supported for TrueType fonts."), f)
  else
    (none, ⟨decomp f.ttfont, true⟩)

/-- `Font.tt_remove_hints` (lib/font/font.py lines 521–529):
`NotImplementedError` unless TrueType, else run the external `dehinter`
library (abstracted as the `dehint` parameter) and set `modified`. -/
def Font.tt_remove_hints (dehint : TTFontData → TTFontData)
    (f : Font) : FontResult :=
  if !f.is_tt then
    (some (.notImplementedError "Only TrueType fonts are supported."), f)
  else
    (none, ⟨dehint f.ttfont, true⟩)

/-- `Font.tt_scale_upem` (lib/font/font.py lines 531–548):
`NotImplementedError` unless TrueType, `ValueError` if the new value is out
of range or equal to the current `head.unitsPerEm`, else run fontTools'
`scale_upem` (abstracted as the `scale` parameter) and set `modified`. -/
def Font.tt_scale_upem (scale : TTFontData → Int → TTFontData)
    (f : Font) (new_upem : Int) : FontResult :=
  if !f.is_tt then
    (some (.notImplementedError "Scaling upem is only supported for TrueType fonts."), f)
  else if new_upem < MIN_UPM || new_upem > MAX_UPM then
    (some (.valueError "units_per_em must be in the range 16384 to 16384."), f)
  else if f.ttfont.unitsPerEm = new_upem then
    (some (.valueError "Font already has the given units per em. No need to scale upem."), f)
  else
    (none, ⟨scale f.ttfont new_upem, true⟩)

/-- Modelled from the spec: the per-charstring part of `fix_charstrings`
(`foundrytools_cli_2/lib/otf/t2_charstrings.py`, absent from the available
sources).  Per the spec's Contour Sanitizer, tiny-path removal drops every
contour whose absolute (shoelace) area is below the configured minimum;
the overlap-resolution and direction-normalization passes are delegated to
an external computational-geometry routine (spec §9) and do not affect the
altered-set bookkeeping verified here.  Comparing doubled areas keeps the
test exact over the integers. -/
def fix_charstring (min_area : Int) (cs : Charstring) : Charstring :=
  cs.filter (fun c => 2 * min_area ≤ |c.doubleArea|)

/-- Modelled from the spec: `fix_charstrings`
(`foundrytools_cli_2/lib/otf/t2_charstrings.py`, absent from the available
sources).  Returns the corrected charstring set together with the list of
names of the glyphs whose charstring was actually altered. -/
def fix_charstrings (min_area : Int) (d : TTFontData) :
    List (String × Charstring) × List String :=
  ((d.charstrings.map (fun p => (p.1, fix_charstring min_area p.2))),
   (d.charstrings.filter
     (fun p => decide (fix_charstring min_area p.2 ≠ p.2))).map Prod.fst)

/-- `Font.ps_correct_contours` (lib/font/font.py lines 550–567):
`NotImplementedError` unless PostScript; run `fix_charstrings`; if no glyph
was modified return the empty list without rebuilding; otherwise rebuild
the CFF table (`build_otf`, taken as the `build` parameter so that its
non-invocation in the empty case is expressible), set `modified`, and
return the modified glyph names. -/
def Font.ps_correct_contours
    (build : TTFontData → List (String × Charstring) → TTFontData)
    (f : Font) (min_area : Int) : Except FontError (List String) × Font :=
  if !f.is_ps then
    (.error (.notImplementedError
      "PS Contour correction is only supported for PostScript flavored fonts."), f)
  else
    let r := fix_charstrings min_area f.ttfont
    if r.2 = [] then
      (.ok [], f)
    else
      (.ok r.2, ⟨build f.ttfont r.1, true⟩)

/-- `Font.ps_subroutinize` (lib/font/font.py lines 569–578):
`NotImplementedError` unless PostScript, else run `cff_subr`
(`lib/otf/cffsubr.py`, absent from the available sources, abstracted as a
parameter) and set `modified`. -/
def Font.ps_subroutinize (cff_subr : TTOp) (f : Font) : FontResult :=
  if !f.is_ps then
    (some (.notImplementedError
      "Subroutinization is only supported for PostScript flavored fonts."), f)
  else
    match cff_subr f.ttfont with
    | (some e, d) => (some e, ⟨d, f.modified⟩)
    | (none, d) => (none, ⟨d, true⟩)

/-- `Font.ps_desubroutinize` (lib/font/font.py lines 580–589). -/
def Font.ps_desubroutinize (cff_desubr : TTOp) (f : Font) : FontResult :=
  if !f.is_ps then
    (some (.notImplementedError
      "Desubroutinization is only supported for PostScript flavored fonts."), f)
  else
    match cff_desubr f.ttfont with
    | (some e, d) => (some e, ⟨d, f.modified⟩)
    | (none, d) => (none, ⟨d, true⟩)

end FontPkg

namespace FontMod

/-- Assignment `glyf_table[glyph_name] = glyph` on the association-list
model of the `glyf` table: replace the binding of the first matching key,
or append a fresh binding. -/
def setGlyph : List (String × TTGlyph) → String → TTGlyph → List (String × TTGlyph)
  | [], n, g => [(n, g)]
  | (k, v) :: rest, n, g =>
    if k = n then (n, g) :: rest else (k, v) :: setGlyph rest n g

/-- The loop body of `Font.tt_decomponentize` (lib/font.py lines 480–488):
walk the glyph order; skip non-composite glyphs; replace each composite
glyph by the simple glyph obtained by decomposing it against the current
table (the fontTools `DecomposingRecordingPen` / `TTGlyphPen` replay,
abstracted as the `draw` parameter).  The table is threaded through the
loop because in the source the replacements are visible to later
iterations. -/
def decompLoop (draw : List (String × TTGlyph) → TTGlyph → List Int) :
    List String → List (String × TTGlyph) → List (String × TTGlyph)
  | [], t => t
  | n :: rest, t =>
    match t.lookup n with
    | some g =>
      if g.isComposite then
        decompLoop draw rest (setGlyph t n (TTGlyph.simple (draw t g)))
      else
        decompLoop draw rest t
    | none => decompLoop draw rest t

/-- `Font.tt_decomponentize` (lib/font.py lines 467–488):
`NotImplementedError` unless the font has TrueType outlines, else rewrite
each composite glyph of the `glyf` table in place.  The advance widths
(`hmtx`) are not touched. -/
def tt_decomponentize (draw : List (String × TTGlyph) → TTGlyph → List Int)
    (d : TTFontData) : Option FontError × TTFontData :=
  if !d.is_tt then
    (some (.notImplementedError
      "Decomponentization is only supported for TrueType fonts."), d)
  else
    (none, { d with glyf := decompLoop draw d.glyphOrder d.glyf })

/-- `Font._restore_flavor` (lib/font.py lines 519–531): remember the
flavor, set it to `None`, run the wrapped operation, and in a `finally`
block restore the remembered flavor — on normal completion and on raise
alike. -/
def restore_flavor (op : TTOp) (d : TTFontData) : Option FontError × TTFontData :=
  let original_flavor := d.flavor
  let r := op { d with flavor := none }
  (r.1, { r.2 with flavor := original_flavor })

/-- `Font.ps_subroutinize` (lib/font.py lines 533–542):
`NotImplementedError` unless PostScript, else run the external `cffsubr`
subroutinizer (abstracted as the `subr` parameter) under
`_restore_flavor`. -/
def ps_subroutinize (subr : TTOp) (d : TTFontData) : Option FontError × TTFontData :=
  if !d.is_ps then
    (some (.notImplementedError
      "Subroutinization is only supported for PostScript fonts."), d)
  else
    restore_flavor subr d

/-- `Font.ps_desubroutinize` (lib/font.py lines 544–553). -/
def ps_desubroutinize (desubr : TTOp) (d : TTFontData) : Option FontError × TTFontData :=
  if !d.is_ps then
    (some (.notImplementedError
      "Desubroutinization is only supported for PostScript fonts."), d)
  else
    restore_flavor desubr d

end FontMod

/-!
## Type 2 charstring subroutine model

The subroutinization / desubroutinization algorithms themselves live in the
external `cffsubr` package and in `foundrytools_cli_2/lib/otf/cffsubr.py`
(absent from the available sources); the definitions in this section are
modelled from the spec's Compaction Stage (§4.5): a charstring is a
sequence of drawing operators and subroutine calls, rendering inlines every
call, desubroutinization replaces every charstring by its rendered (flat)
form, and a subroutinizer is any re-encoding that preserves rendering.
-/

/-- A Type 2 charstring instruction: a drawing operator (abstracted to its
numeric code) or a subroutine call. -/
inductive T2Instr where
  | op (code : Nat)
  | callsubr (idx : Nat)
deriving DecidableEq, Repr

/-- Whether an instruction is a subroutine call. -/
def T2Instr.isCall : T2Instr → Bool
  | .op _ => false
  | .callsubr _ => true

/-- A charstring with no subroutine calls. -/
def isFlat (cs : List T2Instr) : Bool := cs.all (fun i => !i.isCall)

/-- Modelled from the spec: one level of subroutine-call inlining.  `rec`
flattens a subroutine body at the next-smaller nesting budget; operators
are copied through, and a call to a nonexistent subroutine fails. -/
def flattenAux (subrs : List (List T2Instr))
    (rec : List T2Instr → Option (List T2Instr)) :
    List T2Instr → Option (List T2Instr)
  | [] => some []
  | T2Instr.op c :: rest => (flattenAux subrs rec rest).map (T2Instr.op c :: ·)
  | T2Instr.callsubr i :: rest =>
    (subrs.get? i).bind fun body =>
      (rec body).bind fun a =>
        (flattenAux subrs rec rest).map fun b => a ++ b

/-- Modelled from the spec: flatten a charstring by inlining every
subroutine call, with `fuel` bounding the call-nesting depth (a cyclic
subroutine reference exhausts the budget and fails rather than looping). -/
def flatten (subrs : List (List T2Instr)) : Nat → List T2Instr → Option (List T2Instr)
  | 0 => flattenAux subrs (fun _ => none)
  | fuel + 1 => flattenAux subrs (flatten subrs fuel)

/-- A PostScript glyph set in Type 2 form: the shared subroutine index and
the per-glyph charstrings (glyph name → instruction sequence). -/
structure T2Program where
  subrs : List (List T2Instr)
  charstrings : List (String × List T2Instr)
deriving DecidableEq, Repr

/-- Render every glyph of a charstring list by flattening it against the
given subroutine index. -/
def renderGlyphs (subrs : List (List T2Instr)) (fuel : Nat) :
    List (String × List T2Instr) → Option (List (String × List T2Instr))
  | [] => some []
  | (n, cs) :: rest =>
    match flatten subrs fuel cs, renderGlyphs subrs fuel rest with
    | some l, some rs => some ((n, l) :: rs)
    | _, _ => none

/-- The rendered form of a whole glyph set: every charstring flattened
against the program's subroutine index.  Two programs render identically
when this agrees. -/
def renderProgram (fuel : Nat) (P : T2Program) :
    Option (List (String × List T2Instr)) :=
  renderGlyphs P.subrs fuel P.charstrings

/-- Modelled from the spec: desubroutinization inlines every subroutine
call, leaving flat charstrings and an empty subroutine index. -/
def desubroutinize (fuel : Nat) (P : T2Program) : Option T2Program :=
  (renderProgram fuel P).map (fun cs => T2Program.mk [] cs)

/-!
## Theorems
-/

/-- C10: `get_real_extension` gives the wrapper-determined extension for
every compressed web flavor even though the container simultaneously has
PostScript or TrueType outlines, and the outline-kind extensions `.otf` /
`.ttf` are produced only with the raw SFNT (flavor `None`) wrapper: the
wrapper-kind checks always take precedence over the outline-kind checks. -/
theorem claim_C10 (d : TTFontData) :
    (d.is_woff = true → d.get_real_extension = WOFF_EXTENSION) ∧
    (d.is_woff2 = true → d.get_real_extension = WOFF2_EXTENSION) ∧
    (d.get_real_extension = OTF_EXTENSION ∨ d.get_real_extension = TTF_EXTENSION →
      d.is_sfnt = true) ∧
    (d.flavor = none → d.is_ps = true → d.get_real_extension = OTF_EXTENSION) ∧
    (d.flavor = none → d.is_tt = true → d.get_real_extension = TTF_EXTENSION) := by
  rcases hf : d.flavor with _ | fl
  · by_cases hp : d.is_ps = true
    · have ht : d.is_tt = false := by
        have hv : d.sfntVersion = PS_SFNT_VERSION := by
          simpa [TTFontData.is_ps] using hp
        simp [TTFontData.is_tt, hv, PS_SFNT_VERSION, TT_SFNT_VERSION]
      simp [TTFontData.get_real_extension, TTFontData.is_woff, TTFontData.is_woff2,
        TTFontData.is_sfnt, hf, hp, ht, WOFF_EXTENSION, WOFF2_EXTENSION, OTF_EXTENSION,
        TTF_EXTENSION]
    · by_cases ht : d.is_tt = true <;>
        simp_all [TTFontData.get_real_extension, TTFontData.is_woff, TTFontData.is_woff2,
          TTFontData.is_sfnt, TTFontData.is_ps, TTFontData.is_tt, hf, WOFF_EXTENSION,
          WOFF2_EXTENSION, OTF_EXTENSION, TTF_EXTENSION, PS_SFNT_VERSION, TT_SFNT_VERSION]
  · cases fl <;>
      simp [TTFontData.get_real_extension, TTFontData.is_woff, TTFontData.is_woff2,
        TTFontData.is_sfnt, hf, WOFF_EXTENSION, WOFF2_EXTENSION, OTF_EXTENSION, TTF_EXTENSION]

/-- C10 witness: a WOFF-flavored font with PostScript outlines really gets
the `.woff` extension. -/
theorem claim_C10_witness :
    (TTFontData.mk PS_SFNT_VERSION (some Flavor.woff) false 1000 [] [] [] [] []
      ).get_real_extension = WOFF_EXTENSION :=
  (claim_C10 _).1 rfl

/-- C6: each wrapper-kind-only transition (`to_woff`, `to_woff2`,
`to_sfnt`) raises iff the container is already in the requested wrapper
kind; on success it changes only the wrapper flavor and the `modified`
flag, and in every case the outline kind (sfnt version) and the
glyph-program tables are untouched. -/
theorem claim_C6 (f : FontPkg.Font) :
    ((f.to_woff.1 ≠ none) ↔ f.is_woff = true) ∧
    (f.is_woff = false →
      f.to_woff = (none, ⟨{ f.ttfont with flavor := some Flavor.woff }, true⟩)) ∧
    ((f.to_woff2.1 ≠ none) ↔ f.is_woff2 = true) ∧
    (f.is_woff2 = false →
      f.to_woff2 = (none, ⟨{ f.ttfont with flavor := some Flavor.woff2 }, true⟩)) ∧
    ((f.to_sfnt.1 ≠ none) ↔ f.is_sfnt = true) ∧
    (f.is_sfnt = false →
      f.to_sfnt = (none, ⟨{ f.ttfont with flavor := none }, true⟩)) ∧
    (f.to_woff.2.ttfont.sfntVersion = f.ttfont.sfntVersion ∧
      f.to_woff.2.ttfont.glyf = f.ttfont.glyf ∧
      f.to_woff.2.ttfont.charstrings = f.ttfont.charstrings) ∧
    (f.to_woff2.2.ttfont.sfntVersion = f.ttfont.sfntVersion ∧
      f.to_woff2.2.ttfont.glyf = f.ttfont.glyf ∧
      f.to_woff2.2.ttfont.charstrings = f.ttfont.charstrings) ∧
    (f.to_sfnt.2.ttfont.sfntVersion = f.ttfont.sfntVersion ∧
      f.to_sfnt.2.ttfont.glyf = f.ttfont.glyf ∧
      f.to_sfnt.2.ttfont.charstrings = f.ttfont.charstrings) := by
  by_cases h1 : f.is_woff = true <;> by_cases h2 : f.is_woff2 = true <;>
    by_cases h3 : f.is_sfnt = true <;>
    simp [FontPkg.Font.to_woff, FontPkg.Font.to_woff2, FontPkg.Font.to_sfnt, h1, h2, h3]

/-- C6 witness: converting a raw TrueType font to WOFF succeeds, changing
exactly the flavor and the `modified` flag. -/
theorem claim_C6_witness :
    FontPkg.Font.to_woff ⟨⟨TT_SFNT_VERSION, none, false, 1000, [], [], [], [], []⟩, false⟩ =
      (none, ⟨⟨TT_SFNT_VERSION, some Flavor.woff, false, 1000, [], [], [], [], []⟩, true⟩) :=
  (claim_C6 _).2.1 rfl

/-- C2: the outline-kind conversions reject a wrong source outline kind and
variability with a precondition-violation condition (a `ValueError` or
`NotImplementedError`, never the malformed-input condition), and the
failed call leaves the container exactly as it was: the result state is
the input state, so no table is installed and the `modified` flag keeps
its prior value. -/
theorem claim_C2 (f : FontPkg.Font) (fit : Charstring → Bool → TTGlyph)
    (conv : TTGlyph → Charstring) (me tol : ℚ) (rd : Bool) :
    (f.is_tt = true ∨ f.is_variable = true →
      ∃ e, f.to_ttf fit me rd = (some e, f) ∧
        e.isPrecondition = true ∧ e.isMalformed = false) ∧
    (f.is_ps = true ∨ f.is_variable = true →
      ∃ e, f.to_otf conv tol = (some e, f) ∧
        e.isPrecondition = true ∧ e.isMalformed = false) := by
  constructor
  · rintro (h | h)
    · exact ⟨.valueError "Font is already a TrueType font.",
        by simp [FontPkg.Font.to_ttf, h], rfl, rfl⟩
    · by_cases ht : f.is_tt = true
      · exact ⟨.valueError "Font is already a TrueType font.",
          by simp [FontPkg.Font.to_ttf, ht], rfl, rfl⟩
      · exact ⟨.notImplementedError
            "Conversion to TrueType is not supported for variable fonts.",
          by simp [FontPkg.Font.to_ttf, ht, h], rfl, rfl⟩
  · rintro (h | h)
    · exact ⟨.valueError "Font is already a PostScript font.",
        by simp [FontPkg.Font.to_otf, h], rfl, rfl⟩
    · by_cases hp : f.is_ps = true
      · exact ⟨.valueError "Font is already a PostScript font.",
          by simp [FontPkg.Font.to_otf, hp], rfl, rfl⟩
      · exact ⟨.notImplementedError
            "Conversion to PostScript is not supported for variable fonts.",
          by simp [FontPkg.Font.to_otf, hp, h], rfl, rfl⟩

/-- C2 witness: calling `to_ttf` on a font that already has TrueType
outlines fails with a precondition violation and returns the container
unchanged. -/
theorem claim_C2_witness :
    ∃ e, FontPkg.Font.to_ttf (fun _ _ => TTGlyph.simple [])
        ⟨⟨TT_SFNT_VERSION, none, false, 1000, [], [], [], [], []⟩, false⟩ 1 true =
      (some e, ⟨⟨TT_SFNT_VERSION, none, false, 1000, [], [], [], [], []⟩, false⟩) ∧
      e.isPrecondition = true ∧ e.isMalformed = false :=
  (claim_C2 _ _ (fun _ => []) 1 1 true).1 (Or.inl rfl)

/-- C1 counterexample: a variable font (one carrying an `fvar` table) that
is not yet WOFF is converted by `to_woff` without any error, and the call
does have side effects — the wrapper flavor becomes WOFF and the
`modified` flag becomes `True` — refuting the claim that every
outline-kind or wrapper-kind conversion fails on a variable font. -/
theorem claim_C1_counterexample :
    ((⟨⟨PS_SFNT_VERSION, none, true, 1000, [], [], [], [], []⟩, false⟩ :
        FontPkg.Font).is_variable = true) ∧
    FontPkg.Font.to_woff ⟨⟨PS_SFNT_VERSION, none, true, 1000, [], [], [], [], []⟩, false⟩ =
      (none, ⟨⟨PS_SFNT_VERSION, some Flavor.woff, true, 1000, [], [], [], [], []⟩, true⟩) :=
  ⟨rfl, rfl⟩

/-- C1 (amended): for every font container carrying a variation-axis
table, the outline-kind conversions `to_ttf` and `to_otf` fail by raising
an error and have no side effects — the table set, the wrapper flavor and
the `modified` flag are all unchanged after the failed call.  The
wrapper-kind conversions `to_woff`, `to_woff2` and `to_sfnt` do not guard
on variability and are not covered. -/
theorem claim_C1_amended (f : FontPkg.Font) (fit : Charstring → Bool → TTGlyph)
    (conv : TTGlyph → Charstring) (me tol : ℚ) (rd : Bool)
    (h : f.is_variable = true) :
    (∃ e, f.to_ttf fit me rd = (some e, f)) ∧
    (∃ e, f.to_otf conv tol = (some e, f)) := by
  constructor
  · by_cases ht : f.is_tt = true
    · exact ⟨.valueError "Font is already a TrueType font.",
        by simp [FontPkg.Font.to_ttf, ht]⟩
    · exact ⟨.notImplementedError
          "Conversion to TrueType is not supported for variable fonts.",
        by simp [FontPkg.Font.to_ttf, ht, h]⟩
  · by_cases hp : f.is_ps = true
    · exact ⟨.valueError "Font is already a PostScript font.",
        by simp [FontPkg.Font.to_otf, hp]⟩
    · exact ⟨.notImplementedError
          "Conversion to PostScript is not supported for variable fonts.",
        by simp [FontPkg.Font.to_otf, hp, h]⟩

/-- C1 witness: on a concrete variable font, both `to_ttf` and `to_otf`
fail and return the container unchanged. -/
theorem claim_C1_witness :
    (∃ e, FontPkg.Font.to_ttf (fun _ _ => TTGlyph.simple [])
        ⟨⟨PS_SFNT_VERSION, none, true, 1000, [], [], [], [], []⟩, false⟩ 1 true =
      (some e, ⟨⟨PS_SFNT_VERSION, none, true, 1000, [], [], [], [], []⟩, false⟩)) ∧
    (∃ e, FontPkg.Font.to_otf (fun _ => [])
        ⟨⟨PS_SFNT_VERSION, none, true, 1000, [], [], [], [], []⟩, false⟩ 1 =
      (some e, ⟨⟨PS_SFNT_VERSION, none, true, 1000, [], [], [], [], []⟩, false⟩)) :=
  claim_C1_amended _ _ _ 1 1 true rfl

/-- C3: with a tolerance ≤ 0, both curve-conversion directions fail with a
precondition violation and return the container unchanged; when the
outline-kind and variability guards pass, the condition raised is
precisely the invalid-argument (`ValueError`) condition of the tolerance
check. -/
theorem claim_C3 (f : FontPkg.Font) (fit : Charstring → Bool → TTGlyph)
    (conv : TTGlyph → Charstring) (t : ℚ) (rd : Bool) (ht : t ≤ 0) :
    (∃ e, f.to_ttf fit t rd = (some e, f) ∧ e.isPrecondition = true) ∧
    (∃ e, f.to_otf conv t = (some e, f) ∧ e.isPrecondition = true) ∧
    (f.is_tt = false → f.is_variable = false →
      f.to_ttf fit t rd =
        (some (.valueError "max_err must be a positive value"), f)) ∧
    (f.is_ps = false → f.is_variable = false →
      f.to_otf conv t =
        (some (.valueError "tolerance must be a positive value"), f)) := by
  have hb : FontPkg.build_ttf fit f.ttfont t rd =
      (some (.valueError "max_err must be a positive value"), f.ttfont) := by
    simp [FontPkg.build_ttf, ht]
  have hq : FontPkg.quadratics_to_cubics conv f.ttfont t =
      .error (.valueError "tolerance must be a positive value") := by
    simp [FontPkg.quadratics_to_cubics, ht]
  refine ⟨?_, ?_, ?_, ?_⟩
  · by_cases h1 : f.is_tt = true
    · exact ⟨.valueError "Font is already a TrueType font.",
        by simp [FontPkg.Font.to_ttf, h1], rfl⟩
    · by_cases h2 : f.is_variable = true
      · exact ⟨.notImplementedError
            "Conversion to TrueType is not supported for variable fonts.",
          by simp [FontPkg.Font.to_ttf, h1, h2], rfl⟩
      · exact ⟨.valueError "max_err must be a positive value",
          by simp [FontPkg.Font.to_ttf, h1, h2, hb], rfl⟩
  · by_cases h1 : f.is_ps = true
    · exact ⟨.valueError "Font is already a PostScript font.",
        by simp [FontPkg.Font.to_otf, h1], rfl⟩
    · by_cases h2 : f.is_variable = true
      · exact ⟨.notImplementedError
            "Conversion to PostScript is not supported for variable fonts.",
          by simp [FontPkg.Font.to_otf, h1, h2], rfl⟩
      · exact ⟨.valueError "tolerance must be a positive value",
          by simp [FontPkg.Font.to_otf, h1, h2, hq], rfl⟩
  · intro h1 h2
    simp [FontPkg.Font.to_ttf, h1, h2, hb]
  · intro h1 h2
    simp [FontPkg.Font.to_otf, h1, h2, hq]

/-- C3 witness: a static PostScript font with tolerance 0 passed to
`to_ttf` fails with the invalid-argument condition, container unchanged. -/
theorem claim_C3_witness :
    FontPkg.Font.to_ttf (fun _ _ => TTGlyph.simple [])
        ⟨⟨PS_SFNT_VERSION, none, false, 1000, [], [], [], [], []⟩, false⟩ 0 true =
      (some (FontError.valueError "max_err must be a positive value"),
       ⟨⟨PS_SFNT_VERSION, none, false, 1000, [], [], [], [], []⟩, false⟩) :=
  (claim_C3 _ _ (fun _ => []) 0 true le_rfl).2.2.1 (by decide) rfl

/-- C7: every core operation that returns normally leaves `modified = True`
(for `ps_correct_contours`, whenever the altered set is non-empty), and
the flag is readable after every call — it is a plain field of the
resulting container state. -/
theorem claim_C7 (f : FontPkg.Font)
    (fit : Charstring → Bool → TTGlyph) (conv : TTGlyph → Charstring)
    (decomp dehint : TTFontData → TTFontData) (scale : TTFontData → Int → TTFontData)
    (csubr cdesubr : TTOp)
    (build : TTFontData → List (String × Charstring) → TTFontData)
    (me tol : ℚ) (rd : Bool) (upm ma : Int) :
    (f.to_woff.1 = none → f.to_woff.2.modified = true) ∧
    (f.to_woff2.1 = none → f.to_woff2.2.modified = true) ∧
    (f.to_sfnt.1 = none → f.to_sfnt.2.modified = true) ∧
    ((f.to_ttf fit me rd).1 = none → (f.to_ttf fit me rd).2.modified = true) ∧
    ((f.to_otf conv tol).1 = none → (f.to_otf conv tol).2.modified = true) ∧
    ((f.tt_decomponentize decomp).1 = none →
      (f.tt_decomponentize decomp).2.modified = true) ∧
    ((f.tt_remove_hints dehint).1 = none →
      (f.tt_remove_hints dehint).2.modified = true) ∧
    ((f.tt_scale_upem scale upm).1 = none →
      (f.tt_scale_upem scale upm).2.modified = true) ∧
    ((f.ps_subroutinize csubr).1 = none →
      (f.ps_subroutinize csubr).2.modified = true) ∧
    ((f.ps_desubroutinize cdesubr).1 = none →
      (f.ps_desubroutinize cdesubr).2.modified = true) ∧
    (∀ gs, (f.ps_correct_contours build ma).1 = .ok gs → gs ≠ [] →
      (f.ps_correct_contours build ma).2.modified = true) := by
  refine ⟨?_, ?_, ?_, ?_, ?_, ?_, ?_, ?_, ?_, ?_, ?_⟩
  · by_cases h : f.is_woff = true <;> simp [FontPkg.Font.to_woff, h]
  · by_cases h : f.is_woff2 = true <;> simp [FontPkg.Font.to_woff2, h]
  · by_cases h : f.is_sfnt = true <;> simp [FontPkg.Font.to_sfnt, h]
  · by_cases h1 : f.is_tt = true
    · simp [FontPkg.Font.to_ttf, h1]
    · by_cases h2 : f.is_variable = true
      · simp [FontPkg.Font.to_ttf, h1, h2]
      · rcases hb : FontPkg.build_ttf fit f.ttfont me rd with ⟨e, d⟩
        cases e <;> simp [FontPkg.Font.to_ttf, h1, h2, hb]
  · by_cases h1 : f.is_ps = true
    · simp [FontPkg.Font.to_otf, h1]
    · by_cases h2 : f.is_variable = true
      · simp [FontPkg.Font.to_otf, h1, h2]
      · rcases hq : FontPkg.quadratics_to_cubics conv f.ttfont tol with e | cs <;>
          simp [FontPkg.Font.to_otf, h1, h2, hq]
  · by_cases h : f.is_tt = true <;> simp [FontPkg.Font.tt_decomponentize, h]
  · by_cases h : f.is_tt = true <;> simp [FontPkg.Font.tt_remove_hints, h]
  · by_cases h1 : f.is_tt = true
    · by_cases h2 : upm < MIN_UPM || upm > MAX_UPM
      · simp [FontPkg.Font.tt_scale_upem, h1, h2]
      · by_cases h3 : f.ttfont.unitsPerEm = upm <;>
          simp [FontPkg.Font.tt_scale_upem, h1, h2, h3]
    · simp [FontPkg.Font.tt_scale_upem, h1]
  · by_cases h : f.is_ps = true
    · rcases hs : csubr f.ttfont with ⟨e, d⟩
      cases e <;> simp [FontPkg.Font.ps_subroutinize, h, hs]
    · simp [FontPkg.Font.ps_subroutinize, h]
  · by_cases h : f.is_ps = true
    · rcases hs : cdesubr f.ttfont with ⟨e, d⟩
      cases e <;> simp [FontPkg.Font.ps_desubroutinize, h, hs]
    · simp [FontPkg.Font.ps_desubroutinize, h]
  · intro gs hok hne
    by_cases h : f.is_ps = true
    · by_cases he : (FontPkg.fix_charstrings ma f.ttfont).2 = []
      · simp [FontPkg.Font.ps_correct_contours, h, he] at hok
        exact absurd hok hne
      · simp [FontPkg.Font.ps_correct_contours, h, he]
    · simp [FontPkg.Font.ps_correct_contours, h] at hok

/-- C7 witness: converting a raw static TrueType font to WOFF2 succeeds
and the `modified` flag reads `True` afterwards. -/
theorem claim_C7_witness :
    (FontPkg.Font.to_woff2
        ⟨⟨TT_SFNT_VERSION, none, false, 1000, [], [], [], [], []⟩, false⟩).2.modified = true :=
  (claim_C7 ⟨⟨TT_SFNT_VERSION, none, false, 1000, [], [], [], [], []⟩, false⟩
    (fun _ _ => TTGlyph.simple []) (fun _ => []) id id (fun d _ => d)
    (fun d => (none, d)) (fun d => (none, d)) (fun d _ => d)
    1 1 true 2000 25).2.1 rfl

/-- C4: on a non-PostScript font `ps_correct_contours` raises without
mutation; on a PostScript font it returns exactly the names of the glyphs
whose charstring was actually altered by contour correction; when that set
is empty it returns the empty list, leaves the container (and so the
`modified` flag) unchanged and never invokes the CFF rebuild (the result
does not depend on the `build` argument); when it is non-empty the
charstrings are rebuilt and `modified` is set to `True`. -/
theorem claim_C4 (f : FontPkg.Font) (ma : Int)
    (build build' : TTFontData → List (String × Charstring) → TTFontData) :
    (f.is_ps = false →
      f.ps_correct_contours build ma =
        (.error (.notImplementedError
          "PS Contour correction is only supported for PostScript flavored fonts."), f)) ∧
    (f.is_ps = true →
      (∀ l, (f.ps_correct_contours build ma).1 = .ok l →
        ∀ n, n ∈ l ↔
          ∃ cs, (n, cs) ∈ f.ttfont.charstrings ∧ FontPkg.fix_charstring ma cs ≠ cs) ∧
      ((FontPkg.fix_charstrings ma f.ttfont).2 = [] →
        f.ps_correct_contours build ma = (.ok [], f) ∧
        f.ps_correct_contours build ma = f.ps_correct_contours build' ma) ∧
      ((FontPkg.fix_charstrings ma f.ttfont).2 ≠ [] →
        f.ps_correct_contours build ma =
          (.ok (FontPkg.fix_charstrings ma f.ttfont).2,
           ⟨build f.ttfont (FontPkg.fix_charstrings ma f.ttfont).1, true⟩))) := by
  constructor
  · intro h
    simp [FontPkg.Font.ps_correct_contours, h]
  · intro h
    refine ⟨?_, ?_, ?_⟩
    · intro l hok n
      have hl : l = (FontPkg.fix_charstrings ma f.ttfont).2 := by
        by_cases he : (FontPkg.fix_charstrings ma f.ttfont).2 = []
        · simp [FontPkg.Font.ps_correct_contours, h, he] at hok
          rw [hok, he]
        · simp [FontPkg.Font.ps_correct_contours, h, he] at hok
          exact hok.symm
      subst hl
      simp [FontPkg.fix_charstrings, List.mem_map, List.mem_filter]
    · intro he
      constructor <;> simp [FontPkg.Font.ps_correct_contours, h, he]
    · intro he
      simp [FontPkg.Font.ps_correct_contours, h, he]

/-- C4 witness: a PostScript font with one glyph whose only contour is a
degenerate sliver (area below the minimum) reports exactly that glyph as
altered and sets `modified`; with the threshold at zero nothing is altered
and the container is returned untouched. -/
theorem claim_C4_witness :
    FontPkg.Font.ps_correct_contours FontPkg.build_otf
        ⟨⟨PS_SFNT_VERSION, none, false, 1000, [], [],
          [("a", [⟨[(0, 0), (1, 0), (1, 1)]⟩])], [], []⟩, false⟩ 25 =
      (.ok ["a"],
       ⟨FontPkg.build_otf
          ⟨PS_SFNT_VERSION, none, false, 1000, [], [],
           [("a", [⟨[(0, 0), (1, 0), (1, 1)]⟩])], [], []⟩
          [("a", [])], true⟩) :=
  ((claim_C4 ⟨⟨PS_SFNT_VERSION, none, false, 1000, [], [],
      [("a", [⟨[(0, 0), (1, 0), (1, 1)]⟩])], [], []⟩, false⟩
    25 FontPkg.build_otf FontPkg.build_otf).2 rfl).2.2 (by decide)

/-- C5: on every PostScript font, `ps_subroutinize` and
`ps_desubroutinize` run the underlying algorithm on the container with its
wrapper flavor cleared to raw (`None`) and return a state whose flavor is
the original flavor and whose every other field is exactly what the
underlying operation produced — the raised error, if any, passing through
untouched, so the flavor is restored on normal completion and on raise
alike. -/
theorem claim_C5 (d : TTFontData) (subr desubr : TTOp) (h : d.is_ps = true) :
    FontMod.ps_subroutinize subr d =
      ((subr { d with flavor := none }).1,
       { (subr { d with flavor := none }).2 with flavor := d.flavor }) ∧
    FontMod.ps_desubroutinize desubr d =
      ((desubr { d with flavor := none }).1,
       { (desubr { d with flavor := none }).2 with flavor := d.flavor }) := by
  constructor <;>
    simp [FontMod.ps_subroutinize, FontMod.ps_desubroutinize, FontMod.restore_flavor, h]

/-- C5 witness: on a concrete WOFF-wrapped PostScript font, an underlying
operation that mutates the state and raises still sees the flavor cleared
and has the original WOFF flavor restored afterwards. -/
theorem claim_C5_witness :
    FontMod.ps_subroutinize
        (fun x => (some (FontError.valueError "cffsubr failed"),
          { x with unitsPerEm := 0 }))
        ⟨PS_SFNT_VERSION, some Flavor.woff, false, 1000, [], [], [], [], []⟩ =
      ((some (FontError.valueError "cffsubr failed"),
        ⟨PS_SFNT_VERSION, some Flavor.woff, false, 0, [], [], [], [], []⟩) :
        Option FontError × TTFontData) ∧
    FontMod.ps_desubroutinize (fun x => (none, x))
        ⟨PS_SFNT_VERSION, some Flavor.woff, false, 1000, [], [], [], [], []⟩ =
      ((none, ⟨PS_SFNT_VERSION, some Flavor.woff, false, 1000, [], [], [], [], []⟩) :
        Option FontError × TTFontData) :=
  claim_C5 ⟨PS_SFNT_VERSION, some Flavor.woff, false, 1000, [], [], [], [], []⟩
    (fun x => (some (FontError.valueError "cffsubr failed"), { x with unitsPerEm := 0 }))
    (fun x => (none, x)) rfl

/-- Lookup after a `setGlyph` assignment: the assigned key reads back the
new glyph, every other key is untouched. -/
theorem FontMod.lookup_setGlyph (t : List (String × TTGlyph)) (n : String)
    (g : TTGlyph) (m : String) :
    List.lookup m (FontMod.setGlyph t n g) =
      if m = n then some g else List.lookup m t := by
  induction t with
  | nil =>
    by_cases hmn : m = n
    · simp [FontMod.setGlyph, List.lookup, hmn, beq_iff_eq.mpr hmn]
    · simp [FontMod.setGlyph, List.lookup, hmn, beq_eq_false_iff_ne.mpr hmn]
  | cons p rest ih =>
    obtain ⟨k, v⟩ := p
    by_cases hkn : k = n
    · subst hkn
      by_cases hmk : m = k
      · simp [FontMod.setGlyph, List.lookup, hmk, beq_iff_eq.mpr hmk]
      · simp [FontMod.setGlyph, List.lookup, hmk, beq_eq_false_iff_ne.mpr hmk]
    · by_cases hmk : m = k
      · subst hmk
        have hmn : ¬m = n := hkn
        simp [FontMod.setGlyph, List.lookup, hkn, hmn, beq_self_eq_true]
      · simp [FontMod.setGlyph, List.lookup, hkn, hmk,
          beq_eq_false_iff_ne.mpr hmk, ih]

/-- The decomponentization loop never rewrites a glyph that is simple in
the starting table: replacements only ever target keys whose current entry
is composite, and a simple entry stays simple (and identical) for the whole
run. -/
theorem FontMod.decompLoop_keeps_simple
    (draw : List (String × TTGlyph) → TTGlyph → List Int) (order : List String) :
    ∀ (t : List (String × TTGlyph)) (n : String) (p : List Int),
      List.lookup n t = some (TTGlyph.simple p) →
      List.lookup n (FontMod.decompLoop draw order t) = some (TTGlyph.simple p) := by
  induction order with
  | nil =>
    intro t n p h
    simpa [FontMod.decompLoop] using h
  | cons m rest ih =>
    intro t n p h
    rw [FontMod.decompLoop]
    cases hm : List.lookup m t with
    | none => exact ih t n p h
    | some g =>
      by_cases hc : g.isComposite = true
      · simp only [hc, if_true]
        apply ih
        rw [FontMod.lookup_setGlyph]
        by_cases hnm : n = m
        · subst hnm
          rw [h] at hm
          cases hm
          simp [TTGlyph.isComposite] at hc
        · simpa [hnm] using h
      · simp only [Bool.not_eq_true] at hc
        simp only [hc, if_false]
        exact ih t n p h

/-- C8: `tt_decomponentize` fails with the unsupported-operation condition
(`NotImplementedError`) on every font without TrueType outlines, leaving
the state untouched; on a TrueType font it succeeds, every glyph that is
not a composite keeps its glyph program unchanged (only composite glyphs
are rewritten), and the advance widths (`hmtx`) are preserved for every
glyph. -/
theorem claim_C8 (d : TTFontData)
    (draw : List (String × TTGlyph) → TTGlyph → List Int) :
    (d.is_tt = false →
      FontMod.tt_decomponentize draw d =
        (some (.notImplementedError
          "Decomponentization is only supported for TrueType fonts."), d)) ∧
    (d.is_tt = true →
      (FontMod.tt_decomponentize draw d).1 = none ∧
      (∀ n p, List.lookup n d.glyf = some (TTGlyph.simple p) →
        List.lookup n (FontMod.tt_decomponentize draw d).2.glyf =
          some (TTGlyph.simple p)) ∧
      (FontMod.tt_decomponentize draw d).2.hmtx = d.hmtx) := by
  constructor
  · intro h
    simp [FontMod.tt_decomponentize, h]
  · intro h
    refine ⟨by simp [FontMod.tt_decomponentize, h], ?_,
      by simp [FontMod.tt_decomponentize, h]⟩
    intro n p hp
    simp only [FontMod.tt_decomponentize, h, Bool.not_true, Bool.false_eq_true,
      if_false]
    exact FontMod.decompLoop_keeps_simple draw d.glyphOrder d.glyf n p hp

/-- C8 witness: on a concrete TrueType font with one simple and one
composite glyph, decomponentization succeeds, the simple glyph's program
is unchanged, and the advance widths are preserved. -/
theorem claim_C8_witness :
    (FontMod.tt_decomponentize (fun _ _ => [9])
      ⟨TT_SFNT_VERSION, none, false, 1000,
        [("a", TTGlyph.simple [1, 2]), ("b", TTGlyph.composite [("a", 100, 0)])],
        ["a", "b"], [], [("a", 500), ("b", 500)], []⟩).1 = none ∧
    List.lookup "a" (FontMod.tt_decomponentize (fun _ _ => [9])
      ⟨TT_SFNT_VERSION, none, false, 1000,
        [("a", TTGlyph.simple [1, 2]), ("b", TTGlyph.composite [("a", 100, 0)])],
        ["a", "b"], [], [("a", 500), ("b", 500)], []⟩).2.glyf =
      some (TTGlyph.simple [1, 2]) ∧
    (FontMod.tt_decomponentize (fun _ _ => [9])
      ⟨TT_SFNT_VERSION, none, false, 1000,
        [("a", TTGlyph.simple [1, 2]), ("b", TTGlyph.composite [("a", 100, 0)])],
        ["a", "b"], [], [("a", 500), ("b", 500)], []⟩).2.hmtx =
      [("a", 500), ("b", 500)] := by
  have h := (claim_C8
    ⟨TT_SFNT_VERSION, none, false, 1000,
      [("a", TTGlyph.simple [1, 2]), ("b", TTGlyph.composite [("a", 100, 0)])],
      ["a", "b"], [], [("a", 500), ("b", 500)], []⟩
    (fun _ _ => [9])).2 rfl
  exact ⟨h.1, h.2.1 "a" [1, 2] (by decide), h.2.2⟩

/-- Concatenating two call-free charstrings is call-free. -/
theorem isFlat_append {a b : List T2Instr}
    (ha : isFlat a = true) (hb : isFlat b = true) : isFlat (a ++ b) = true := by
  simp only [isFlat, List.all_append, Bool.and_eq_true] at *
  exact ⟨ha, hb⟩

/-- Whatever `flattenAux` returns is call-free, provided the recursive
flattener only returns call-free charstrings. -/
theorem flattenAux_flat (subrs : List (List T2Instr))
    (rec : List T2Instr → Option (List T2Instr))
    (hrec : ∀ b l, rec b = some l → isFlat l = true) :
    ∀ (cs l : List T2Instr), flattenAux subrs rec cs = some l → isFlat l = true := by
  intro cs
  induction cs with
  | nil =>
    intro l h
    simp only [flattenAux, Option.some.injEq] at h
    subst h
    rfl
  | cons i rest ih =>
    cases i with
    | op c =>
      intro l h
      rw [flattenAux] at h
      rcases h0 : flattenAux subrs rec rest with _ | l0
      · rw [h0] at h
        cases h
      · rw [h0] at h
        simp only [Option.map_some', Option.some.injEq] at h
        subst h
        simpa [isFlat, T2Instr.isCall] using ih l0 h0
    | callsubr j =>
      intro l h
      rw [flattenAux] at h
      rcases hg : subrs.get? j with _ | body
      · rw [hg] at h
        cases h
      · rw [hg] at h
        simp only [Option.some_bind] at h
        rcases hr : rec body with _ | a
        · rw [hr] at h
          cases h
        · rw [hr] at h
          simp only [Option.some_bind] at h
          rcases hf : flattenAux subrs rec rest with _ | b
          · rw [hf] at h
            cases h
          · rw [hf] at h
            simp only [Option.map_some', Option.some.injEq] at h
            subst h
            exact isFlat_append (hrec body a hr) (ih b hf)

/-- Whatever `flatten` returns is call-free. -/
theorem flatten_flat (subrs : List (List T2Instr)) :
    ∀ (fuel : Nat) (cs l : List T2Instr),
      flatten subrs fuel cs = some l → isFlat l = true := by
  intro fuel
  induction fuel with
  | zero => exact flattenAux_flat subrs _ (fun b l h => by cases h)
  | succ n ih => exact flattenAux_flat subrs _ ih

/-- `flattenAux` leaves a call-free charstring untouched. -/
theorem flattenAux_of_flat (subrs : List (List T2Instr))
    (rec : List T2Instr → Option (List T2Instr)) :
    ∀ cs : List T2Instr, isFlat cs = true → flattenAux subrs rec cs = some cs := by
  intro cs
  induction cs with
  | nil => intro _; rfl
  | cons i rest ih =>
    cases i with
    | op c =>
      intro h
      have hr : isFlat rest = true := by
        simpa [isFlat, T2Instr.isCall] using h
      simp [flattenAux, ih hr]
    | callsubr j =>
      intro h
      simp [isFlat, T2Instr.isCall] at h

/-- `flatten` leaves a call-free charstring untouched, at any fuel. -/
theorem flatten_of_flat (subrs : List (List T2Instr)) (fuel : Nat)
    (cs : List T2Instr) (h : isFlat cs = true) :
    flatten subrs fuel cs = some cs := by
  cases fuel <;> exact flattenAux_of_flat subrs _ cs h

/-- Every charstring produced by `renderGlyphs` is call-free. -/
theorem renderGlyphs_flat (subrs : List (List T2Instr)) (fuel : Nat) :
    ∀ (gs r : List (String × List T2Instr)),
      renderGlyphs subrs fuel gs = some r → ∀ p ∈ r, isFlat p.2 = true := by
  intro gs
  induction gs with
  | nil =>
    intro r h p hp
    simp only [renderGlyphs, Option.some.injEq] at h
    subst h
    simp at hp
  | cons q rest ih =>
    obtain ⟨n, cs⟩ := q
    intro r h p hp
    rw [renderGlyphs] at h
    rcases hf : flatten subrs fuel cs with _ | l
    · rw [hf] at h
      cases h
    · rw [hf] at h
      rcases hr : renderGlyphs subrs fuel rest with _ | rs
      · rw [hr] at h
        cases h
      · rw [hr] at h
        simp only [Option.some.injEq] at h
        subst h
        rcases List.mem_cons.mp hp with hp | hp
        · subst hp
          exact flatten_flat subrs fuel cs l hf
        · exact ih rs hr p hp

/-- A glyph set whose charstrings are all call-free renders to itself
against any subroutine index and any fuel. -/
theorem renderGlyphs_of_flat (subrs : List (List T2Instr)) (fuel : Nat) :
    ∀ gs : List (String × List T2Instr),
      (∀ p ∈ gs, isFlat p.2 = true) → renderGlyphs subrs fuel gs = some gs := by
  intro gs
  induction gs with
  | nil => intro _; rfl
  | cons q rest ih =>
    obtain ⟨n, cs⟩ := q
    intro h
    have h1 : isFlat cs = true := h (n, cs) (by simp)
    have h2 := ih (fun p hp => h p (by simp [hp]))
    simp [renderGlyphs, flatten_of_flat subrs fuel cs h1, h2]

/-- C9: for every glyph set `X` that renders (is well-formed at some
nesting budget), desubroutinizing and then subroutinizing yields a program
that renders identically to `X` for every glyph, and subroutinizing and
then desubroutinizing likewise renders identically to `X` — pure
re-encoding in either direction, for any subroutinizer `S` that preserves
rendering (the spec's contract for the Compaction Stage). -/
theorem claim_C9 (X : T2Program) (S : T2Program → T2Program) (fuel : Nat)
    (r : List (String × List T2Instr))
    (hS : ∀ (P : T2Program) (u : List (String × List T2Instr)) (g : Nat),
      renderProgram g P = some u → ∃ g', renderProgram g' (S P) = some u)
    (hX : renderProgram fuel X = some r) :
    (desubroutinize fuel X = some ⟨[], r⟩ ∧
      ∃ g', renderProgram g' (S ⟨[], r⟩) = some r) ∧
    (∃ g', renderProgram g' (S X) = some r ∧
      desubroutinize g' (S X) = some ⟨[], r⟩ ∧
      ∀ g'', renderProgram g'' (⟨[], r⟩ : T2Program) = some r) := by
  have hrflat : ∀ p ∈ r, isFlat p.2 = true :=
    renderGlyphs_flat X.subrs fuel X.charstrings r hX
  have hflatrender : ∀ g'' : Nat,
      renderProgram g'' (⟨[], r⟩ : T2Program) = some r := by
    intro g''
    exact renderGlyphs_of_flat [] g'' r hrflat
  refine ⟨⟨?_, hS ⟨[], r⟩ r 0 (hflatrender 0)⟩, ?_⟩
  · simp [desubroutinize, renderProgram] at hX ⊢
    simp [hX]
  · obtain ⟨g', hg'⟩ := hS X r fuel hX
    exact ⟨g', hg', by simp [desubroutinize, hg'], hflatrender⟩

/-- C9 witness: a one-glyph program whose charstring calls one subroutine,
with the identity as a (trivially render-preserving) subroutinizer. -/
theorem claim_C9_witness :
    ((desubroutinize 1 ⟨[[T2Instr.op 1]], [("a", [T2Instr.callsubr 0, T2Instr.op 2])]⟩ =
        some ⟨[], [("a", [T2Instr.op 1, T2Instr.op 2])]⟩ ∧
      ∃ g', renderProgram g'
          (id (⟨[], [("a", [T2Instr.op 1, T2Instr.op 2])]⟩ : T2Program)) =
        some [("a", [T2Instr.op 1, T2Instr.op 2])]) ∧
     (∃ g', renderProgram g'
          (id (⟨[[T2Instr.op 1]], [("a", [T2Instr.callsubr 0, T2Instr.op 2])]⟩ :
            T2Program)) =
        some [("a", [T2Instr.op 1, T2Instr.op 2])] ∧
      desubroutinize g'
          (id (⟨[[T2Instr.op 1]], [("a", [T2Instr.callsubr 0, T2Instr.op 2])]⟩ :
            T2Program)) =
        some ⟨[], [("a", [T2Instr.op 1, T2Instr.op 2])]⟩ ∧
      ∀ g'', renderProgram g''
          (⟨[], [("a", [T2Instr.op 1, T2Instr.op 2])]⟩ : T2Program) =
        some [("a", [T2Instr.op 1, T2Instr.op 2])])) :=
  claim_C9 ⟨[[T2Instr.op 1]], [("a", [T2Instr.callsubr 0, T2Instr.op 2])]⟩ id 1
    [("a", [T2Instr.op 1, T2Instr.op 2])]
    (fun _ _ g h => ⟨g, h⟩) rfl
